import Mathlib

/-!
Shallow embedding of the string-analyzer REST API (`src/server.js`, with the
`src/unnamed/part_000` variant where the two differ), together with proofs
checking the natural-language specification against it.

Modelling conventions:
* JavaScript strings are Lean `String`s (lists of characters); `toLowerCase`
  is modelled ASCII-faithfully by `Char.toLower`.
* `CryptoJS.SHA256(...).toString()` is an uninterpreted parameter
  `hash : String → String`; every definition that calls `createHash` takes it
  as an argument, and no theorem relies on properties SHA-256 lacks.
* `new Date().toISOString()` is an uninterpreted `now : String` argument.
* JSON request-body values are the inductive `JsonVal`; absent fields are
  `Option.none`; JavaScript truthiness is `jsTruthy`.
-/

namespace StringAnalyzer

/-! ### Character and string utilities (JS built-ins used by the source) -/

/-- ASCII whitespace, modelling the class `\s` and `String.prototype.trim`. -/
def isWS (c : Char) : Bool :=
  c == ' ' || c == '\t' || c == '\n' || c == '\r' || c == '\x0b' || c == '\x0c'

/-- Lower-case ASCII letter (the class `[a-z]`). -/
def isLowerAZ (c : Char) : Bool := 'a' ≤ c && c ≤ 'z'

/-- ASCII digit (the class `\d` / `[0-9]`). -/
def isDigitC (c : Char) : Bool := '0' ≤ c && c ≤ '9'

/-- The class `[a-z0-9]` used by the palindrome normalizer. -/
def isAlnumLower (c : Char) : Bool := isLowerAZ c || isDigitC c

/-- `str.toLowerCase()` (ASCII-faithful). -/
def lowerStr (s : String) : String := ⟨s.data.map Char.toLower⟩

/-- Strip leading and trailing whitespace from a character list
(`String.prototype.trim`). -/
def trimWS (cs : List Char) : List Char :=
  ((cs.dropWhile isWS).reverse.dropWhile isWS).reverse

/-- Does `cs` start with the pattern `pat`? Helper for `strIncludes`. -/
def listHasPrefix : List Char → List Char → Bool
  | [], _ => true
  | _ :: _, [] => false
  | p :: ps, c :: cs => p == c && listHasPrefix ps cs

/-- Does `pat` occur contiguously inside the list? Helper for `strIncludes`. -/
def listHasSub (pat : List Char) : List Char → Bool
  | [] => listHasPrefix pat []
  | c :: cs => listHasPrefix pat (c :: cs) || listHasSub pat cs

/-- `s.includes(pat)` — contiguous substring containment. -/
def strIncludes (s pat : String) : Bool := listHasSub pat.data s.data

/-- Numeric value of a list of ASCII digits, most significant first. -/
def digitsToNat (cs : List Char) : Nat :=
  cs.foldl (fun a c => a * 10 + (c.toNat - '0'.toNat)) 0

/-- First maximal run of ASCII digits in a character list, modelling
`str.match(/(\d+)/)` (the captured group, or `none` when there is no match). -/
def firstDigitRun : List Char → Option (List Char)
  | [] => none
  | c :: cs => if isDigitC c then some (c :: cs.takeWhile isDigitC) else firstDigitRun cs

/-- First lower-case ASCII letter in a character list, modelling
`str.match(/[a-z]/)` (the matched character, or `none`). -/
def firstLowerAZ : List Char → Option Char
  | [] => none
  | c :: cs => if isLowerAZ c then some c else firstLowerAZ cs

/-- `parseInt(str)` in base 10: skip leading whitespace, optional sign, then a
maximal run of digits; `none` models `NaN`. (`0x`-prefixed hexadecimal
literals are not modelled.) -/
def parseIntJS (s : String) : Option Int :=
  match s.data.dropWhile isWS with
  | '-' :: rest =>
      let ds := rest.takeWhile isDigitC
      if ds.isEmpty then none else some (-(digitsToNat ds : Int))
  | '+' :: rest =>
      let ds := rest.takeWhile isDigitC
      if ds.isEmpty then none else some (digitsToNat ds : Int)
  | cs =>
      let ds := cs.takeWhile isDigitC
      if ds.isEmpty then none else some (digitsToNat ds : Int)

/-! ### JSON values and JavaScript truthiness -/

/-- A JSON value as it can appear in a parsed request body. -/
inductive JsonVal where
  | jnull : JsonVal
  | jbool : Bool → JsonVal
  | jnum : Int → JsonVal
  | jstr : String → JsonVal
deriving DecidableEq

/-- JavaScript truthiness of `req.body.value` (`none` models an absent
field, i.e. `undefined`). -/
def jsTruthy : Option JsonVal → Bool
  | none => false
  | some JsonVal.jnull => false
  | some (JsonVal.jbool b) => b
  | some (JsonVal.jnum n) => n != 0
  | some (JsonVal.jstr s) => s != ""

/-- `typeof v === 'string'`. -/
def isJstr : JsonVal → Bool
  | JsonVal.jstr _ => true
  | _ => false

/-! ### The analyzer helper functions of `server.js` (lines 21–50) -/

/-- The normalized character list of the palindrome check:
`str.toLowerCase().replace(/[^a-z0-9]/g, '')`. -/
def cleanChars (s : String) : List Char :=
  (s.data.map Char.toLower).filter isAlnumLower

/-- `isPalindrome` (server.js lines 21–24): the cleaned text equals its own
reverse. -/
def isPalindrome (s : String) : Bool :=
  cleanChars s == (cleanChars s).reverse

/-- `countUniqueCharacters` (lines 27–29): size of the set of characters of
the lower-cased text with whitespace removed. -/
def countUniqueCharacters (s : String) : Nat :=
  (((lowerStr s).data.filter (fun c => !isWS c)).dedup).length

/-- `countWords` (lines 32–34): 0 for a blank string, otherwise the number of
tokens of `trim().split(/\s+/)`. -/
def countWords (s : String) : Nat :=
  let t := trimWS s.data
  if t.isEmpty then 0
  else ((t.splitOnP (fun c => isWS c)).filter (fun w => !w.isEmpty)).length

/-- Increment the counter of `c` in a JS-object-like association list,
appending a fresh key at the end. -/
def bumpChar : List (Char × Nat) → Char → List (Char × Nat)
  | [], c => [(c, 1)]
  | (a, n) :: rest, c =>
      if a == c then (a, n + 1) :: rest else (a, n) :: bumpChar rest c

/-- `characterFrequency` (lines 37–45): per-character counts over the
lower-cased text, skipping the literal space character only. -/
def characterFrequency (s : String) : List (Char × Nat) :=
  (lowerStr s).data.foldl (fun f c => if c == ' ' then f else bumpChar f c) []

/-! ### Records and the Create handler -/

/-- The `properties` object computed by POST /strings (lines 78–85). -/
structure AnalysisProperties where
  length : Nat
  is_palindrome : Bool
  unique_characters : Nat
  word_count : Nat
  sha256_hash : String
  character_frequency_map : List (Char × Nat)
deriving DecidableEq

/-- `analyze`: the property computation of the Create handler, parametrized by
the hash function (`createHash`). -/
def analyze (hash : String → String) (value : String) : AnalysisProperties :=
  { length := value.length
    is_palindrome := isPalindrome value
    unique_characters := countUniqueCharacters value
    word_count := countWords value
    sha256_hash := hash value
    character_frequency_map := characterFrequency value }

/-- A stored record (`newString`, lines 88–93). -/
structure StringRecord where
  id : String
  value : String
  properties : AnalysisProperties
  created_at : String
deriving DecidableEq

/-- The record pushed onto `stringDatabase` for a given raw text. -/
def mkRecord (hash : String → String) (now : String) (value : String) : StringRecord :=
  { id := hash value
    value := value
    properties := analyze hash value
    created_at := now }

/-- Outcome of a POST /strings request: HTTP status, created record (on 201),
and the database after the request. -/
structure CreateResult where
  status : Nat
  record : Option StringRecord
  db : List StringRecord
deriving DecidableEq

/-- The duplicate check and push shared by both Create variants
(server.js lines 69–98, part_000 lines 87–113). -/
def insertCore (hash : String → String) (now : String) (db : List StringRecord)
    (v : String) : CreateResult :=
  let h := hash v
  if db.any (fun s => s.id == h) then
    { status := 409, record := none, db := db }
  else
    let r := mkRecord hash now v
    { status := 201, record := some r, db := db ++ [r] }

/-- POST /strings of `src/server.js` (lines 57–103): a falsy `value` is
rejected with 400, a truthy non-string with 422. -/
def createServer (hash : String → String) (now : String) (db : List StringRecord)
    (value : Option JsonVal) : CreateResult :=
  if !jsTruthy value then
    { status := 400, record := none, db := db }
  else
    match value with
    | some (JsonVal.jstr v) => insertCore hash now db v
    | _ => { status := 422, record := none, db := db }

/-- POST /strings of `src/unnamed/part_000` (lines 73–118): an absent `value`
is rejected with 404 (per its own comment, "instead of 400"), a present
non-string with 422. -/
def createPart000 (hash : String → String) (now : String) (db : List StringRecord)
    (value : Option JsonVal) : CreateResult :=
  match value with
  | none => { status := 404, record := none, db := db }
  | some (JsonVal.jstr v) => insertCore hash now db v
  | some _ => { status := 422, record := none, db := db }

/-- Outcome of GET /strings/:value. -/
structure GetOneResult where
  status : Nat
  record : Option StringRecord
deriving DecidableEq

/-- GET /strings/:value (server.js lines 106–120): re-hash the path text and
look the record up by id. -/
def getOne (hash : String → String) (db : List StringRecord) (v : String) :
    GetOneResult :=
  match db.find? (fun s => s.id == hash v) with
  | none => { status := 404, record := none }
  | some r => { status := 200, record := some r }

/-- Outcome of DELETE /strings/:value. -/
structure DeleteResult where
  status : Nat
  db : List StringRecord
deriving DecidableEq

/-- DELETE /strings/:value (server.js lines 255–270): `findIndex` then
`splice(index, 1)`. -/
def deleteOne (hash : String → String) (db : List StringRecord) (v : String) :
    DeleteResult :=
  let h := hash v
  match db.findIdx? (fun s => s.id == h) with
  | none => { status := 404, db := db }
  | some i => { status := 204, db := db.eraseIdx i }

/-- Store states reachable through the mutating routes of `src/server.js`
(POST and DELETE), starting from the empty `stringDatabase`. -/
inductive ReachableS (hash : String → String) : List StringRecord → Prop where
  | nil : ReachableS hash []
  | create (db : List StringRecord) (now : String) (v : Option JsonVal) :
      ReachableS hash db → ReachableS hash (createServer hash now db v).db
  | del (db : List StringRecord) (v : String) :
      ReachableS hash db → ReachableS hash (deleteOne hash db v).db

/-- Store states reachable through the mutating routes of
`src/unnamed/part_000`. -/
inductive ReachableP (hash : String → String) : List StringRecord → Prop where
  | nil : ReachableP hash []
  | create (db : List StringRecord) (now : String) (v : Option JsonVal) :
      ReachableP hash db → ReachableP hash (createPart000 hash now db v).db
  | del (db : List StringRecord) (v : String) :
      ReachableP hash db → ReachableP hash (deleteOne hash db v).db

/-! ### GET /strings — the list-with-filters handlers -/

/-- The raw query parameters of a List request; `none` models an absent
parameter, `some ""` a present-but-empty one. -/
structure ListQuery where
  is_palindrome : Option String
  min_length : Option String
  max_length : Option String
  word_count : Option String
  contains_character : Option String
deriving DecidableEq

/-- Outcome of GET /strings: status, result records, and the error message of
a 400 response when there is one. -/
structure ListResult where
  status : Nat
  data : List StringRecord
  error : Option String
deriving DecidableEq

/-- The `is_palindrome` block of `src/server.js` GET /strings (lines
129–133): a present token is coerced with `=== 'true'`, never rejected. -/
def palStep (q : ListQuery) (r : List StringRecord) : List StringRecord :=
  match q.is_palindrome with
  | none => r
  | some t => r.filter (fun s => s.properties.is_palindrome == (t == "true"))

/-- The `min_length` block (lines 136–142): an empty token is falsy and
skipped; a non-numeric or negative parse is silently skipped. -/
def minStep (q : ListQuery) (r : List StringRecord) : List StringRecord :=
  match q.min_length with
  | none => r
  | some t =>
    if t == "" then r
    else match parseIntJS t with
      | none => r
      | some n => if 0 ≤ n then r.filter (fun s => n.toNat ≤ s.properties.length) else r

/-- The `max_length` block (lines 145–151). -/
def maxStep (q : ListQuery) (r : List StringRecord) : List StringRecord :=
  match q.max_length with
  | none => r
  | some t =>
    if t == "" then r
    else match parseIntJS t with
      | none => r
      | some n => if 0 ≤ n then r.filter (fun s => s.properties.length ≤ n.toNat) else r

/-- The `word_count` block (lines 154–160). -/
def wcStep (q : ListQuery) (r : List StringRecord) : List StringRecord :=
  match q.word_count with
  | none => r
  | some t =>
    if t == "" then r
    else match parseIntJS t with
      | none => r
      | some n => if 0 ≤ n then r.filter (fun s => s.properties.word_count == n.toNat) else r

/-- The `contains_character` block (lines 163–169): the token is lower-cased
and trimmed; anything not exactly one character long is silently skipped. -/
def charStep (q : ListQuery) (r : List StringRecord) : List StringRecord :=
  match q.contains_character with
  | none => r
  | some t =>
    if t == "" then r
    else match trimWS (lowerStr t).data with
      | [c] => r.filter (fun s => (lowerStr s.value).data.contains c)
      | _ => r

/-- GET /strings of `src/server.js` (lines 123–180): the five filter blocks
applied in source order; the response is always 200. -/
def listServer (db : List StringRecord) (q : ListQuery) : ListResult :=
  { status := 200
    data := charStep q (wcStep q (maxStep q (minStep q (palStep q db))))
    error := none }

/-- The `contains_character` block and 200 response of
`src/unnamed/part_000` GET /strings (lines 180–192): an invalid populated
token aborts with 400 and a field-specific message. -/
def listPart000Char (r : List StringRecord) (q : ListQuery) : ListResult :=
  match q.contains_character with
  | some t =>
    if t == "" then { status := 200, data := r, error := none }
    else
      match trimWS (lowerStr t).data with
      | [c] => { status := 200
                 data := r.filter (fun s => (lowerStr s.value).data.contains c)
                 error := none }
      | _ => { status := 400, data := []
               error := some "contains_character must be a single character" }
  | none => { status := 200, data := r, error := none }

/-- The `word_count` block of part_000 (lines 173–178) and everything after
it. -/
def listPart000Wc (r : List StringRecord) (q : ListQuery) : ListResult :=
  match q.word_count with
  | some t =>
    if t == "" then listPart000Char r q
    else match parseIntJS t with
      | none => { status := 400, data := [], error := some "word_count must be a number" }
      | some n => listPart000Char (r.filter (fun s => (s.properties.word_count : Int) == n)) q
  | none => listPart000Char r q

/-- The `max_length` block of part_000 (lines 165–170) and everything after
it. -/
def listPart000Max (r : List StringRecord) (q : ListQuery) : ListResult :=
  match q.max_length with
  | some t =>
    if t == "" then listPart000Wc r q
    else match parseIntJS t with
      | none => { status := 400, data := [], error := some "max_length must be a number" }
      | some n => listPart000Wc (r.filter (fun s => (s.properties.length : Int) ≤ n)) q
  | none => listPart000Wc r q

/-- The `min_length` block of part_000 (lines 157–162) and everything after
it. -/
def listPart000Min (r : List StringRecord) (q : ListQuery) : ListResult :=
  match q.min_length with
  | some t =>
    if t == "" then listPart000Max r q
    else match parseIntJS t with
      | none => { status := 400, data := [], error := some "min_length must be a number" }
      | some n => listPart000Max (r.filter (fun s => n ≤ (s.properties.length : Int))) q
  | none => listPart000Max r q

/-- GET /strings of `src/unnamed/part_000` (lines 141–197), starting with
its `is_palindrome` block (lines 147–154): like `listServer` but a populated
invalid token aborts the request with 400 and a field-specific message (a
present-but-empty numeric or `contains_character` token is still falsy and
is skipped, as in server.js). -/
def listPart000 (db : List StringRecord) (q : ListQuery) : ListResult :=
  match q.is_palindrome with
  | some t =>
    if t != "true" && t != "false" then
      { status := 400, data := [], error := some "is_palindrome must be true or false" }
    else
      listPart000Min (db.filter (fun s => s.properties.is_palindrome == (t == "true"))) q
  | none => listPart000Min db q

/-- A validated, normalized filter specification (§3 FilterSpec): the parsed
values the handlers actually filter with. -/
structure FilterSpec where
  is_palindrome : Option Bool := none
  min_length : Option Nat := none
  max_length : Option Nat := none
  word_count : Option Nat := none
  contains_character : Option Char := none
deriving DecidableEq

/-- Palindrome-equality predicate of a populated `is_palindrome` field. -/
def palPred (fb : Option Bool) (s : StringRecord) : Bool :=
  match fb with
  | none => true
  | some b => s.properties.is_palindrome == b

/-- Inclusive lower bound predicate of a populated `min_length` field. -/
def minPred (fn : Option Nat) (s : StringRecord) : Bool :=
  match fn with
  | none => true
  | some n => n ≤ s.properties.length

/-- Inclusive upper bound predicate of a populated `max_length` field. -/
def maxPred (fn : Option Nat) (s : StringRecord) : Bool :=
  match fn with
  | none => true
  | some n => s.properties.length ≤ n

/-- Exact-equality predicate of a populated `word_count` field. -/
def wcPred (fn : Option Nat) (s : StringRecord) : Bool :=
  match fn with
  | none => true
  | some n => s.properties.word_count == n

/-- Case-insensitive containment predicate of a populated
`contains_character` field. -/
def charPred (fc : Option Char) (s : StringRecord) : Bool :=
  match fc with
  | none => true
  | some c => (lowerStr s.value).data.contains c

/-- Conjunction of all populated filter fields on one record (§4.4):
palindrome equality, inclusive length bounds, exact word-count equality, and
case-insensitive single-character containment in the raw value. -/
def matchesSpec (f : FilterSpec) (s : StringRecord) : Bool :=
  palPred f.is_palindrome s && minPred f.min_length s && maxPred f.max_length s
    && wcPred f.word_count s && charPred f.contains_character s

/-! ### The natural-language classifier and its route handler -/

/-- The natural-language classifier of `src/server.js` (lines 195–222):
ordered string-containment rules over the lower-cased query, first match
wins, `none` on classification failure. (The source's TYPE 5 branch repeats
TYPE 2's condition and is therefore unreachable; it is kept here.) -/
def classifyServer (q : String) : Option FilterSpec :=
  let lq := lowerStr q
  if strIncludes lq "single word" && strIncludes lq "palindromic" then
    some { word_count := some 1, is_palindrome := some true }
  else if strIncludes lq "longer than" && (firstDigitRun lq.data).isSome then
    some { min_length := some (digitsToNat ((firstDigitRun lq.data).getD []) + 1) }
  else if strIncludes lq "containing" && strIncludes lq "letter"
      && (firstLowerAZ lq.data).isSome then
    some { contains_character := firstLowerAZ lq.data }
  else if strIncludes lq "palindromic" then
    some { is_palindrome := some true }
  else if strIncludes lq "longer than" && (firstDigitRun lq.data).isSome then
    some { min_length := some (digitsToNat ((firstDigitRun lq.data).getD []) + 1) }
  else
    none

/-- The natural-language classifier of `src/unnamed/part_000`
(lines 210–223): rule 3 requires the contiguous phrase
"containing the letter". -/
def classifyPart000 (q : String) : Option FilterSpec :=
  let lq := lowerStr q
  if strIncludes lq "single word" && strIncludes lq "palindromic" then
    some { word_count := some 1, is_palindrome := some true }
  else if strIncludes lq "longer than" && (firstDigitRun lq.data).isSome then
    some { min_length := some (digitsToNat ((firstDigitRun lq.data).getD []) + 1) }
  else if strIncludes lq "containing the letter" && (firstLowerAZ lq.data).isSome then
    some { contains_character := firstLowerAZ lq.data }
  else if strIncludes lq "palindromic" then
    some { is_palindrome := some true }
  else
    none

/-- Application of a parsed filter object inside the natural-language handler
(server.js lines 225–238): note the JS truthiness guards, under which a zero
`min_length` or `word_count` would be skipped, and the absence of a
`max_length` block. -/
def applyNlFilters (db : List StringRecord) (f : FilterSpec) : List StringRecord :=
  let r1 := match f.is_palindrome with
    | none => db
    | some b => db.filter (fun s => s.properties.is_palindrome == b)
  let r2 := match f.min_length with
    | none => r1
    | some n => if n == 0 then r1 else r1.filter (fun s => n ≤ s.properties.length)
  let r3 := match f.word_count with
    | none => r2
    | some n => if n == 0 then r2 else r2.filter (fun s => s.properties.word_count == n)
  match f.contains_character with
  | none => r3
  | some c => r3.filter (fun s => (lowerStr s.value).data.contains c)

/-- Outcome of GET /strings/filter-by-natural-language. -/
structure NlResult where
  status : Nat
  data : List StringRecord
  original : Option String
  parsed_filters : Option FilterSpec
deriving DecidableEq

/-- The natural-language route handler of `src/server.js` (lines 183–252),
taking the already-URL-decoded `query` parameter (`none` when absent). -/
def nlHandler (db : List StringRecord) (queryParam : Option String) : NlResult :=
  let query := queryParam.getD ""
  if query == "" || (trimWS query.data).isEmpty then
    { status := 400, data := [], original := none, parsed_filters := none }
  else
    match classifyServer query with
    | none => { status := 400, data := [], original := none, parsed_filters := none }
    | some f =>
      { status := 200, data := applyNlFilters db f,
        original := some query, parsed_filters := some f }

/-! ### Express route dispatch

Express matches registered routes in registration order and a `:param`
segment matches any single non-empty path segment, so the first registered
pattern that matches the request path receives the request. -/

/-- One segment of a registered route pattern. -/
inductive Seg where
  | lit : String → Seg
  | param : String → Seg
deriving DecidableEq

/-- The GET handlers of the two server variants. -/
inductive GetRoute where
  | fetchOne
  | listStrings
  | nlFilter
deriving DecidableEq

/-- Does one pattern segment match one path segment? -/
def segMatches : Seg → String → Bool
  | Seg.lit l, s => l == s
  | Seg.param _, s => s != ""

/-- Does a whole route pattern match a path (same length, segmentwise)? -/
def routeMatches (pat : List Seg) (path : List String) : Bool :=
  pat.length == path.length &&
  (List.zip pat path).all (fun p => segMatches p.1 p.2)

/-- The GET routes of `src/server.js` in registration order
(lines 106, 123, 183): the `/strings/:value` route comes first. -/
def serverGetRoutes : List (List Seg × GetRoute) :=
  [([Seg.lit "strings", Seg.param "value"], GetRoute.fetchOne),
   ([Seg.lit "strings"], GetRoute.listStrings),
   ([Seg.lit "strings", Seg.lit "filter-by-natural-language"], GetRoute.nlFilter)]

/-- The GET routes of `src/unnamed/part_000` in registration order
(lines 121, 141, 200): identical ordering. -/
def part000GetRoutes : List (List Seg × GetRoute) :=
  [([Seg.lit "strings", Seg.param "value"], GetRoute.fetchOne),
   ([Seg.lit "strings"], GetRoute.listStrings),
   ([Seg.lit "strings", Seg.lit "filter-by-natural-language"], GetRoute.nlFilter)]

/-- First-match-wins dispatch over a route table. -/
def dispatchGet (routes : List (List Seg × GetRoute)) (path : List String) :
    Option GetRoute :=
  (routes.find? (fun r => routeMatches r.1 path)).map (fun r => r.2)

/-! ### Helper lemmas -/

/-- `find?` skips a prefix in which nothing matches. -/
theorem find?_append_of_none {α : Type} (p : α → Bool) (l1 l2 : List α)
    (h : l1.find? p = none) : (l1 ++ l2).find? p = l2.find? p := by
  rw [List.find?_append, h, Option.none_or]

/-- The store invariant of §3: ids are pairwise distinct and every id is the
hash of the record's raw value. -/
def StoreInvariant (hash : String → String) (db : List StringRecord) : Prop :=
  List.Pairwise (fun a b => a.id ≠ b.id) db ∧ ∀ r ∈ db, r.id = hash r.value

/-- A successful `insertCore` preserves the store invariant: the duplicate
check guarantees the appended id is fresh. -/
theorem insertCore_invariant (hash : String → String) (now : String)
    (db : List StringRecord) (v : String) (hinv : StoreInvariant hash db) :
    StoreInvariant hash (insertCore hash now db v).db := by
  unfold insertCore
  by_cases hdup : db.any (fun s => s.id == hash v) = true
  · simpa [hdup] using hinv
  · rw [Bool.not_eq_true] at hdup
    simp only [hdup, Bool.false_eq_true, if_false]
    constructor
    · rw [List.pairwise_append]
      refine ⟨hinv.1, List.pairwise_singleton _ _, ?_⟩
      intro a ha b hb
      rw [List.mem_singleton] at hb
      subst hb
      have hall := List.any_eq_false.mp hdup a ha
      simp only [beq_iff_eq] at hall
      exact hall
    · intro r hr
      rw [List.mem_append, List.mem_singleton] at hr
      rcases hr with hr | hr
      · exact hinv.2 r hr
      · subst hr; rfl

/-- `deleteOne` preserves the store invariant (the surviving records form a
sublist). -/
theorem deleteOne_invariant (hash : String → String) (db : List StringRecord)
    (v : String) (hinv : StoreInvariant hash db) :
    StoreInvariant hash (deleteOne hash db v).db := by
  unfold deleteOne
  cases hidx : db.findIdx? (fun s => s.id == hash v) with
  | none => simpa [hidx] using hinv
  | some i =>
    simp only [hidx]
    have hsub : List.Sublist (db.eraseIdx i) db := List.eraseIdx_sublist db i
    exact ⟨hinv.1.sublist hsub, fun r hr => hinv.2 r (hsub.mem hr)⟩

/-- Every store state reachable through the `src/server.js` routes satisfies
the id invariant, and additionally never holds an empty-string value (the
falsy check of the Create handler keeps `""` out). -/
theorem reachableS_invariant (hash : String → String) (db : List StringRecord)
    (h : ReachableS hash db) :
    StoreInvariant hash db ∧ ∀ r ∈ db, r.value ≠ "" := by
  induction h with
  | nil => exact ⟨⟨List.Pairwise.nil, by simp⟩, by simp⟩
  | create db now v _ ih =>
    cases v with
    | none => simpa [createServer, jsTruthy] using ih
    | some jv =>
      cases jv with
      | jnull => simpa [createServer, jsTruthy] using ih
      | jbool b =>
        cases b <;> simpa [createServer, jsTruthy] using ih
      | jnum n =>
        by_cases hn : n = 0
        · simpa [createServer, jsTruthy, hn] using ih
        · simpa [createServer, jsTruthy, hn] using ih
      | jstr s =>
        by_cases hs : s = ""
        · simpa [createServer, jsTruthy, hs] using ih
        · have hts : jsTruthy (some (JsonVal.jstr s)) = true := by
            simp [jsTruthy, hs]
          simp only [createServer, hts, Bool.not_true, Bool.false_eq_true, if_false]
          refine ⟨insertCore_invariant hash now db s ih.1, ?_⟩
          unfold insertCore
          by_cases hdup : db.any (fun r => r.id == hash s) = true
          · simpa [hdup] using ih.2
          · rw [Bool.not_eq_true] at hdup
            simp only [hdup, Bool.false_eq_true, if_false]
            intro r hr
            rw [List.mem_append, List.mem_singleton] at hr
            rcases hr with hr | hr
            · exact ih.2 r hr
            · subst hr; exact hs
  | del db v _ ih =>
    refine ⟨deleteOne_invariant hash db v ih.1, ?_⟩
    unfold deleteOne
    cases hidx : db.findIdx? (fun s => s.id == hash v) with
    | none => simpa [hidx] using ih.2
    | some i =>
      simp only [hidx]
      exact fun r hr => ih.2 r ((List.eraseIdx_sublist db i).mem hr)

/-- Every store state reachable through the `src/unnamed/part_000` routes
satisfies the id invariant. -/
theorem reachableP_invariant (hash : String → String) (db : List StringRecord)
    (h : ReachableP hash db) : StoreInvariant hash db := by
  induction h with
  | nil => exact ⟨List.Pairwise.nil, by simp⟩
  | create db now v _ ih =>
    cases v with
    | none => simpa [createPart000] using ih
    | some jv =>
      cases jv with
      | jnull => simpa [createPart000] using ih
      | jbool b => simpa [createPart000] using ih
      | jnum n => simpa [createPart000] using ih
      | jstr s =>
        simpa [createPart000] using insertCore_invariant hash now db s ih
  | del db v _ ih => exact deleteOne_invariant hash db v ih

/-- A populated `is_palindrome` token that fails §4.4 validation. -/
def palInvalid : Option String → Bool
  | some t => t != "true" && t != "false"
  | none => false

/-- A populated, non-empty numeric token that fails §4.4 validation. -/
def numInvalid : Option String → Bool
  | some t => t != "" && (parseIntJS t).isNone
  | none => false

/-- A populated, non-empty `contains_character` token that fails §4.4
validation (does not normalize to exactly one character). -/
def charInvalid : Option String → Bool
  | some t => t != "" && (trimWS (lowerStr t).data).length != 1
  | none => false

/-- Some populated (non-empty) List parameter fails §4.4 validation. -/
def hasInvalidParam (q : ListQuery) : Bool :=
  palInvalid q.is_palindrome || numInvalid q.min_length || numInvalid q.max_length
    || numInvalid q.word_count || charInvalid q.contains_character

/-- The response is a 400 validation error with empty data and a message. -/
def Is400 (res : ListResult) : Prop :=
  res.status = 400 ∧ res.data = [] ∧ res.error ≠ none

/-- An invalid `contains_character` token makes the part_000 block fail. -/
theorem listPart000Char_invalid (r : List StringRecord) (q : ListQuery)
    (h : charInvalid q.contains_character = true) : Is400 (listPart000Char r q) := by
  unfold listPart000Char
  cases hq : q.contains_character with
  | none => rw [hq] at h; simp [charInvalid] at h
  | some t =>
    rw [hq] at h
    rw [charInvalid, Bool.and_eq_true] at h
    obtain ⟨ht, hl⟩ := h
    have ht' : (t == "") = false := by
      cases hb : t == "" <;> simp_all
    simp only [ht', Bool.false_eq_true, if_false]
    cases hch : trimWS (lowerStr t).data with
    | nil => simp [Is400]
    | cons c rest =>
      cases rest with
      | nil => rw [hch] at hl; simp at hl
      | cons d rest2 => simp [Is400]

/-- An invalid token at or after the `word_count` block makes part_000
fail. -/
theorem listPart000Wc_invalid (r : List StringRecord) (q : ListQuery)
    (h : (numInvalid q.word_count || charInvalid q.contains_character) = true) :
    Is400 (listPart000Wc r q) := by
  unfold listPart000Wc
  cases hq : q.word_count with
  | none =>
    rw [hq] at h
    simp only [numInvalid, Bool.false_or] at h
    exact listPart000Char_invalid r q h
  | some t =>
    rw [hq] at h
    by_cases hown : numInvalid (some t) = true
    · rw [numInvalid, Bool.and_eq_true] at hown
      obtain ⟨ht, hp⟩ := hown
      have ht' : (t == "") = false := by
        cases hb : t == "" <;> simp_all
      have hp' : parseIntJS t = none := by
        cases hpc : parseIntJS t <;> simp_all
      simp [ht', hp', Is400]
    · have hchar : charInvalid q.contains_character = true := by
        rw [Bool.or_eq_true] at h
        rcases h with h1 | h1
        · exact absurd h1 hown
        · exact h1
      by_cases ht : (t == "") = true
      · simp only [ht, if_true]
        exact listPart000Char_invalid r q hchar
      · rw [Bool.not_eq_true] at ht
        simp only [ht, Bool.false_eq_true, if_false]
        cases hp : parseIntJS t with
        | none =>
          have htne : ¬t = "" := by simpa using ht
          exact absurd (by simp [numInvalid, htne, hp]) hown
        | some n =>
          exact listPart000Char_invalid _ q hchar

/-- An invalid token at or after the `max_length` block makes part_000
fail. -/
theorem listPart000Max_invalid (r : List StringRecord) (q : ListQuery)
    (h : (numInvalid q.max_length || (numInvalid q.word_count
          || charInvalid q.contains_character)) = true) :
    Is400 (listPart000Max r q) := by
  unfold listPart000Max
  cases hq : q.max_length with
  | none =>
    rw [hq] at h
    simp only [numInvalid, Bool.false_or] at h
    exact listPart000Wc_invalid r q h
  | some t =>
    rw [hq] at h
    by_cases hown : numInvalid (some t) = true
    · rw [numInvalid, Bool.and_eq_true] at hown
      obtain ⟨ht, hp⟩ := hown
      have ht' : (t == "") = false := by
        cases hb : t == "" <;> simp_all
      have hp' : parseIntJS t = none := by
        cases hpc : parseIntJS t <;> simp_all
      simp [ht', hp', Is400]
    · have hrest : (numInvalid q.word_count || charInvalid q.contains_character) = true := by
        rw [Bool.or_eq_true] at h
        rcases h with h1 | h1
        · exact absurd h1 hown
        · exact h1
      by_cases ht : (t == "") = true
      · simp only [ht, if_true]
        exact listPart000Wc_invalid r q hrest
      · rw [Bool.not_eq_true] at ht
        simp only [ht, Bool.false_eq_true, if_false]
        cases hp : parseIntJS t with
        | none =>
          have htne : ¬t = "" := by simpa using ht
          exact absurd (by simp [numInvalid, htne, hp]) hown
        | some n =>
          exact listPart000Wc_invalid _ q hrest

/-- An invalid token at or after the `min_length` block makes part_000
fail. -/
theorem listPart000Min_invalid (r : List StringRecord) (q : ListQuery)
    (h : (numInvalid q.min_length || (numInvalid q.max_length
          || (numInvalid q.word_count || charInvalid q.contains_character))) = true) :
    Is400 (listPart000Min r q) := by
  unfold listPart000Min
  cases hq : q.min_length with
  | none =>
    rw [hq] at h
    simp only [numInvalid, Bool.false_or] at h
    exact listPart000Max_invalid r q h
  | some t =>
    rw [hq] at h
    by_cases hown : numInvalid (some t) = true
    · rw [numInvalid, Bool.and_eq_true] at hown
      obtain ⟨ht, hp⟩ := hown
      have ht' : (t == "") = false := by
        cases hb : t == "" <;> simp_all
      have hp' : parseIntJS t = none := by
        cases hpc : parseIntJS t <;> simp_all
      simp [ht', hp', Is400]
    · have hrest : (numInvalid q.max_length || (numInvalid q.word_count
          || charInvalid q.contains_character)) = true := by
        rw [Bool.or_eq_true] at h
        rcases h with h1 | h1
        · exact absurd h1 hown
        · exact h1
      by_cases ht : (t == "") = true
      · simp only [ht, if_true]
        exact listPart000Max_invalid r q hrest
      · rw [Bool.not_eq_true] at ht
        simp only [ht, Bool.false_eq_true, if_false]
        cases hp : parseIntJS t with
        | none =>
          have htne : ¬t = "" := by simpa using ht
          exact absurd (by simp [numInvalid, htne, hp]) hown
        | some n =>
          exact listPart000Max_invalid _ q hrest

/-- Any populated invalid List parameter makes part_000 answer 400. -/
theorem listPart000_invalid (db : List StringRecord) (q : ListQuery)
    (h : hasInvalidParam q = true) : Is400 (listPart000 db q) := by
  unfold listPart000
  unfold hasInvalidParam at h
  rw [Bool.or_assoc, Bool.or_assoc, Bool.or_assoc] at h
  cases hq : q.is_palindrome with
  | none =>
    rw [hq] at h
    simp only [palInvalid, Bool.false_or] at h
    exact listPart000Min_invalid db q h
  | some t =>
    rw [hq] at h
    by_cases hown : palInvalid (some t) = true
    · simp only [palInvalid] at hown
      simp [hown, Is400]
    · have hrest : (numInvalid q.min_length || (numInvalid q.max_length
          || (numInvalid q.word_count || charInvalid q.contains_character))) = true := by
        rw [Bool.or_eq_true] at h
        rcases h with h1 | h1
        · exact absurd h1 hown
        · exact h1
      simp only [palInvalid] at hown
      rw [Bool.not_eq_true] at hown
      simp only [hown, Bool.false_eq_true, if_false]
      exact listPart000Min_invalid _ q hrest

/-- Validity relation between a raw `is_palindrome` token and its parsed
boolean (§4.4: the token must be the literal boolean string). -/
def PalRel : Option String → Option Bool → Prop := fun qt fb =>
  (qt = none ∧ fb = none) ∨ (qt = some "true" ∧ fb = some true)
    ∨ (qt = some "false" ∧ fb = some false)

/-- Validity relation between a raw numeric token and its parsed
non-negative integer. -/
def NumRel : Option String → Option Nat → Prop := fun qt fn =>
  (qt = none ∧ fn = none)
    ∨ ∃ t n, qt = some t ∧ t ≠ "" ∧ parseIntJS t = some n ∧ 0 ≤ n ∧ fn = some n.toNat

/-- Validity relation between a raw `contains_character` token and its
normalized single character. -/
def CharRel : Option String → Option Char → Prop := fun qt fc =>
  (qt = none ∧ fc = none)
    ∨ ∃ t c, qt = some t ∧ t ≠ "" ∧ trimWS (lowerStr t).data = [c] ∧ fc = some c

/-- Under a valid token, the server.js `is_palindrome` block is a filter. -/
theorem palStep_eq (q : ListQuery) (fb : Option Bool)
    (h : PalRel q.is_palindrome fb) (r : List StringRecord) :
    palStep q r = r.filter (fun s => palPred fb s) := by
  rcases h with ⟨hq, hf⟩ | ⟨hq, hf⟩ | ⟨hq, hf⟩ <;> subst hf <;>
    simp [palStep, hq, palPred]

/-- Under a valid token, the server.js `min_length` block is a filter. -/
theorem minStep_eq (q : ListQuery) (fn : Option Nat)
    (h : NumRel q.min_length fn) (r : List StringRecord) :
    minStep q r = r.filter (fun s => minPred fn s) := by
  rcases h with ⟨hq, hf⟩ | ⟨t, n, hq, ht, hp, hn, hf⟩ <;> subst hf
  · simp [minStep, hq, minPred]
  · have ht' : (t == "") = false := by
      cases hb : t == "" <;> simp_all
    simp [minStep, hq, ht', hp, hn, minPred]

/-- Under a valid token, the server.js `max_length` block is a filter. -/
theorem maxStep_eq (q : ListQuery) (fn : Option Nat)
    (h : NumRel q.max_length fn) (r : List StringRecord) :
    maxStep q r = r.filter (fun s => maxPred fn s) := by
  rcases h with ⟨hq, hf⟩ | ⟨t, n, hq, ht, hp, hn, hf⟩ <;> subst hf
  · simp [maxStep, hq, maxPred]
  · have ht' : (t == "") = false := by
      cases hb : t == "" <;> simp_all
    simp [maxStep, hq, ht', hp, hn, maxPred]

/-- Under a valid token, the server.js `word_count` block is a filter. -/
theorem wcStep_eq (q : ListQuery) (fn : Option Nat)
    (h : NumRel q.word_count fn) (r : List StringRecord) :
    wcStep q r = r.filter (fun s => wcPred fn s) := by
  rcases h with ⟨hq, hf⟩ | ⟨t, n, hq, ht, hp, hn, hf⟩ <;> subst hf
  · simp [wcStep, hq, wcPred]
  · have ht' : (t == "") = false := by
      cases hb : t == "" <;> simp_all
    simp [wcStep, hq, ht', hp, hn, wcPred]

/-- Under a valid token, the server.js `contains_character` block is a
filter. -/
theorem charStep_eq (q : ListQuery) (fc : Option Char)
    (h : CharRel q.contains_character fc) (r : List StringRecord) :
    charStep q r = r.filter (fun s => charPred fc s) := by
  rcases h with ⟨hq, hf⟩ | ⟨t, c, hq, ht, htr, hf⟩ <;> subst hf
  · simp [charStep, hq, charPred]
  · have ht' : (t == "") = false := by
      cases hb : t == "" <;> simp_all
    simp [charStep, hq, ht', htr, charPred]

/-! ### Claim theorems -/

/-- The spec's palindrome normalization (§3/§4.1): lower-case the value and
strip every character outside `[a-z0-9]`. Stated from the spec's words, for
comparison with the code's `cleanChars`. -/
def specStrip (s : String) : List Char :=
  (s.data.map Char.toLower).filter isAlnumLower

/-- C7: for every input text, `is_palindrome` is true iff the text,
lower-cased and stripped of every character outside `[a-z0-9]`, equals its
own reverse; a text that is empty after stripping is palindromic; the
spec's concrete examples hold. -/
theorem is_palindrome_spec (s : String) :
    (isPalindrome s = true ↔ specStrip s = (specStrip s).reverse)
    ∧ (specStrip s = [] → isPalindrome s = true)
    ∧ isPalindrome "" = true
    ∧ isPalindrome "A man, a plan, a canal: Panama" = true
    ∧ isPalindrome "Hello" = false := by
  have hiff : isPalindrome s = true ↔ specStrip s = (specStrip s).reverse := by
    unfold isPalindrome cleanChars specStrip
    exact beq_iff_eq
  refine ⟨hiff, ?_, by decide, by decide, by decide⟩
  intro hempty
  exact hiff.mpr (by rw [hempty]; rfl)

/-- C7 witness: the theorem applied at a text that strips to empty. -/
theorem is_palindrome_spec_witness : isPalindrome "!?!" = true :=
  (is_palindrome_spec "!?!").2.1 (by decide)

/-- C1: a GET on the natural-language path is dispatched to the fetch-one
route `/strings/:value` (registered first, its `:value` parameter matching
the literal segment `filter-by-natural-language`) in both source variants,
so even a recognized phrasing is answered by the fetch-one handler (404 when
no stored record's id is the hash of the literal path segment), not by the
natural-language handler, which on the same query would answer 200 with
parsed filters. -/
theorem nl_route_shadowed_by_fetch_one :
    dispatchGet serverGetRoutes ["strings", "filter-by-natural-language"]
      = some GetRoute.fetchOne
    ∧ dispatchGet part000GetRoutes ["strings", "filter-by-natural-language"]
      = some GetRoute.fetchOne
    ∧ dispatchGet serverGetRoutes ["strings", "filter-by-natural-language"]
      ≠ some GetRoute.nlFilter
    ∧ (getOne (fun s => s) [] "filter-by-natural-language").status = 404
    ∧ (nlHandler [] (some "all single word palindromic strings")).status = 200
    ∧ (nlHandler [] (some "all single word palindromic strings")).parsed_filters
      = some { word_count := some 1, is_palindrome := some true } := by
  decide

/-- C4 counterexample: the query "strings that contain letter z" mentions
"contain" combined with "letter" and contains lower-case letters (first one
's'), yet both classifiers return a classification failure, not
`{contains_character: 's'}` — the code requires the word "containing"
(part_000 even the phrase "containing the letter"), not "contain". -/
theorem classifier_contain_counterexample :
    classifyServer "strings that contain letter z" = none
    ∧ classifyPart000 "strings that contain letter z" = none
    ∧ strIncludes (lowerStr "strings that contain letter z") "contain" = true
    ∧ strIncludes (lowerStr "strings that contain letter z") "letter" = true
    ∧ firstLowerAZ (lowerStr "strings that contain letter z").data = some 's' := by
  decide

/-- C4 amended: for every query that matches neither rule 1 nor rule 2 and
whose lower-cased text contains the word "containing" (for `src/server.js`;
the contiguous phrase "containing the letter" for part_000) together with
"letter" and at least one lower-case letter, the classifier returns
`{contains_character: c}` where `c` is the first lower-case letter of the
lower-cased query text itself. -/
theorem classifier_containing_amended (q : String) (c : Char)
    (h1 : ¬(strIncludes (lowerStr q) "single word" = true
            ∧ strIncludes (lowerStr q) "palindromic" = true))
    (h2 : ¬(strIncludes (lowerStr q) "longer than" = true
            ∧ (firstDigitRun (lowerStr q).data).isSome = true))
    (hc : firstLowerAZ (lowerStr q).data = some c) :
    (strIncludes (lowerStr q) "containing" = true →
      strIncludes (lowerStr q) "letter" = true →
      classifyServer q = some { contains_character := some c })
    ∧ (strIncludes (lowerStr q) "containing the letter" = true →
      classifyPart000 q = some { contains_character := some c }) := by
  have e1 : (strIncludes (lowerStr q) "single word"
      && strIncludes (lowerStr q) "palindromic") = false := by
    cases ha : strIncludes (lowerStr q) "single word" <;>
      cases hb : strIncludes (lowerStr q) "palindromic" <;> simp_all
  have e2 : (strIncludes (lowerStr q) "longer than"
      && (firstDigitRun (lowerStr q).data).isSome) = false := by
    cases ha : strIncludes (lowerStr q) "longer than" <;>
      cases hb : (firstDigitRun (lowerStr q).data).isSome <;> simp_all
  constructor
  · intro hco hle
    simp [classifyServer, e1, e2, hco, hle, hc]
  · intro hph
    simp [classifyPart000, e1, e2, hph, hc]

/-- C4 witness: the amended theorem at the canonical query
"strings containing the letter z" — note the extracted character is 's',
the first lower-case letter of the query text, not 'z'. -/
theorem classifier_containing_amended_witness :
    classifyServer "strings containing the letter z"
      = some { contains_character := some 's' }
    ∧ classifyPart000 "strings containing the letter z"
      = some { contains_character := some 's' } := by
  have h := classifier_containing_amended "strings containing the letter z" 's'
    (by decide) (by decide) (by decide)
  exact ⟨h.1 (by decide) (by decide), h.2 (by decide)⟩

/-- C5 counterexample: in "7 cats longer than 3" the phrase "longer than" is
followed by the decimal number 3, so the claim demands `{min_length: 4}`;
the code instead takes the first number anywhere in the query and returns
`{min_length: 8}` (in both variants). -/
theorem classifier_longer_than_counterexample :
    classifyServer "7 cats longer than 3" = some { min_length := some 8 }
    ∧ classifyServer "7 cats longer than 3" ≠ some { min_length := some 4 }
    ∧ classifyPart000 "7 cats longer than 3" = some { min_length := some 8 } := by
  decide

/-- C5 amended: for every query not matching rule 1 whose lower-cased text
contains "longer than" and at least one decimal number, the classifier (both
variants) returns `{min_length: M + 1}` where `M` is the first run of digits
anywhere in the query (which is the number following "longer than" whenever
that number is the first one in the query); applying the resulting filter
keeps exactly the records whose length is strictly greater than `M`. -/
theorem classifier_longer_than_amended (q : String) (ds : List Char)
    (h1 : ¬(strIncludes (lowerStr q) "single word" = true
            ∧ strIncludes (lowerStr q) "palindromic" = true))
    (h2 : strIncludes (lowerStr q) "longer than" = true)
    (h3 : firstDigitRun (lowerStr q).data = some ds) :
    classifyServer q = some { min_length := some (digitsToNat ds + 1) }
    ∧ classifyPart000 q = some { min_length := some (digitsToNat ds + 1) }
    ∧ ∀ db : List StringRecord,
        applyNlFilters db { min_length := some (digitsToNat ds + 1) }
          = db.filter (fun s => decide (digitsToNat ds < s.properties.length)) := by
  have e1 : (strIncludes (lowerStr q) "single word"
      && strIncludes (lowerStr q) "palindromic") = false := by
    cases ha : strIncludes (lowerStr q) "single word" <;>
      cases hb : strIncludes (lowerStr q) "palindromic" <;> simp_all
  refine ⟨?_, ?_, ?_⟩
  · simp [classifyServer, e1, h2, h3]
  · simp [classifyPart000, e1, h2, h3]
  · intro db
    simp only [applyNlFilters]
    have : (digitsToNat ds + 1 == 0) = false := by simp
    simp only [this, Bool.false_eq_true, if_false]
    congr 1

/-- C5 witness: the amended theorem at the spec's example — the query
"strings longer than 3 characters" against the store `["ab", "abcd"]`
resolves to `min_length` 4 and returns only `"abcd"`. -/
theorem classifier_longer_than_amended_witness :
    classifyServer "strings longer than 3 characters" = some { min_length := some 4 }
    ∧ applyNlFilters
        [mkRecord (fun s => s) "t" "ab", mkRecord (fun s => s) "t" "abcd"]
        { min_length := some 4 }
      = [mkRecord (fun s => s) "t" "abcd"] := by
  have h := classifier_longer_than_amended "strings longer than 3 characters" ['3']
    (by decide) (by decide) (by decide)
  have h4 : digitsToNat ['3'] + 1 = 4 := by decide
  rw [h4] at h
  refine ⟨h.1, ?_⟩
  rw [h.2.2]
  decide

/-- C3: in every reachable store state (either variant) the ids of stored
records are pairwise distinct and every id equals `hash(value)`; reinserting
the text of a stored record (server.js), or any text whose digest is already
present (part_000), fails with 409 and leaves the store unchanged. -/
theorem store_id_invariant_and_conflict (hash : String → String) :
    (∀ db, ReachableS hash db →
        List.Pairwise (fun a b : StringRecord => a.id ≠ b.id) db
        ∧ ∀ r ∈ db, r.id = hash r.value)
    ∧ (∀ db, ReachableP hash db →
        List.Pairwise (fun a b : StringRecord => a.id ≠ b.id) db
        ∧ ∀ r ∈ db, r.id = hash r.value)
    ∧ (∀ db now v, ReachableS hash db → (∃ r ∈ db, r.value = v) →
        (createServer hash now db (some (JsonVal.jstr v))).status = 409
        ∧ (createServer hash now db (some (JsonVal.jstr v))).db = db)
    ∧ (∀ db now v, (∃ r ∈ db, r.id = hash v) →
        (createPart000 hash now db (some (JsonVal.jstr v))).status = 409
        ∧ (createPart000 hash now db (some (JsonVal.jstr v))).db = db) := by
  refine ⟨?_, ?_, ?_, ?_⟩
  · intro db h
    exact (reachableS_invariant hash db h).1
  · intro db h
    exact reachableP_invariant hash db h
  · rintro db now v hreach ⟨r, hr, hrv⟩
    obtain ⟨⟨_, hid⟩, hne⟩ := reachableS_invariant hash db hreach
    have hv : v ≠ "" := hrv ▸ hne r hr
    have htruthy : jsTruthy (some (JsonVal.jstr v)) = true := by
      simp [jsTruthy, hv]
    have hany : db.any (fun s => s.id == hash v) = true := by
      refine List.any_eq_true.mpr ⟨r, hr, ?_⟩
      rw [beq_iff_eq, hid r hr, hrv]
    constructor <;> simp [createServer, htruthy, insertCore, hany]
  · rintro db now v ⟨r, hr, hrid⟩
    have hany : db.any (fun s => s.id == hash v) = true :=
      List.any_eq_true.mpr ⟨r, hr, by rw [beq_iff_eq, hrid]⟩
    constructor <;> simp [createPart000, insertCore, hany]

/-- C3 witness: the theorem at the concrete store obtained by inserting
"abc" into the empty store; a second insert of "abc" yields 409 and the
store is unchanged. -/
theorem store_id_invariant_and_conflict_witness :
    (createServer (fun s => s) "t1"
        ((createServer (fun s => s) "t0" [] (some (JsonVal.jstr "abc"))).db)
        (some (JsonVal.jstr "abc"))).status = 409
    ∧ (createServer (fun s => s) "t1"
        ((createServer (fun s => s) "t0" [] (some (JsonVal.jstr "abc"))).db)
        (some (JsonVal.jstr "abc"))).db
      = (createServer (fun s => s) "t0" [] (some (JsonVal.jstr "abc"))).db :=
  (store_id_invariant_and_conflict (fun s => s)).2.2.1
    ((createServer (fun s => s) "t0" [] (some (JsonVal.jstr "abc"))).db)
    "t1" "abc"
    (ReachableS.create [] "t0" (some (JsonVal.jstr "abc")) ReachableS.nil)
    ⟨mkRecord (fun s => s) "t0" "abc", by decide, rfl⟩

/-- C9: after a successful insert of `x` (status 201), fetching `x` returns
status 200 with exactly the created record, whose `value` is `x` itself (no
normalization) and whose `properties` equal `analyze(x)`. -/
theorem insert_get_roundtrip (hash : String → String) (now : String)
    (db : List StringRecord) (x : String)
    (h : (createServer hash now db (some (JsonVal.jstr x))).status = 201) :
    (getOne hash (createServer hash now db (some (JsonVal.jstr x))).db x).status = 200
    ∧ (getOne hash (createServer hash now db (some (JsonVal.jstr x))).db x).record
      = some (mkRecord hash now x)
    ∧ (mkRecord hash now x).value = x
    ∧ (mkRecord hash now x).properties = analyze hash x := by
  by_cases hx : x = ""
  · subst hx
    simp [createServer, jsTruthy] at h
  · have htruthy : jsTruthy (some (JsonVal.jstr x)) = true := by
      simp [jsTruthy, hx]
    by_cases hdup : db.any (fun s => s.id == hash x) = true
    · simp [createServer, htruthy, insertCore, hdup] at h
    · rw [Bool.not_eq_true] at hdup
      have hdb : (createServer hash now db (some (JsonVal.jstr x))).db
          = db ++ [mkRecord hash now x] := by
        simp [createServer, htruthy, insertCore, hdup]
      have hfindnone : db.find? (fun s => s.id == hash x) = none :=
        List.find?_eq_none.mpr (fun r hr => by
          simpa using List.any_eq_false.mp hdup r hr)
      have hget : getOne hash (createServer hash now db (some (JsonVal.jstr x))).db x
          = { status := 200, record := some (mkRecord hash now x) } := by
        rw [hdb]
        unfold getOne
        rw [find?_append_of_none _ _ _ hfindnone,
          List.find?_cons_of_pos _ (by simp [mkRecord])]
      rw [hget]
      exact ⟨rfl, rfl, rfl, rfl⟩

/-- C9 witness: the round-trip theorem at `x = "abc"` on the empty store. -/
theorem insert_get_roundtrip_witness :
    (getOne (fun s => s)
        ((createServer (fun s => s) "t0" [] (some (JsonVal.jstr "abc"))).db)
        "abc").record
      = some (mkRecord (fun s => s) "t0" "abc") :=
  (insert_get_roundtrip (fun s => s) "t0" [] "abc" (by decide)).2.1

/-- C10: in `src/server.js` a Create request whose `value` is the empty
string is rejected with the 400 missing-field error and the store is
unchanged; consequently no reachable server.js store ever holds an
empty-string value; the part_000 variant instead accepts the empty string
(201) whenever its digest is not already present. -/
theorem empty_string_create (hash : String → String) (now : String)
    (db : List StringRecord) :
    ((createServer hash now db (some (JsonVal.jstr ""))).status = 400
      ∧ (createServer hash now db (some (JsonVal.jstr ""))).db = db)
    ∧ (∀ db2, ReachableS hash db2 → ∀ r ∈ db2, r.value ≠ "")
    ∧ ((∀ r ∈ db, r.id ≠ hash "") →
        (createPart000 hash now db (some (JsonVal.jstr ""))).status = 201
        ∧ (createPart000 hash now db (some (JsonVal.jstr ""))).db
          = db ++ [mkRecord hash now ""]) := by
  refine ⟨⟨rfl, rfl⟩, ?_, ?_⟩
  · intro db2 h2
    exact (reachableS_invariant hash db2 h2).2
  · intro hno
    have hany : db.any (fun s => s.id == hash "") = false :=
      List.any_eq_false.mpr (fun r hr => by simpa using hno r hr)
    constructor <;> simp [createPart000, insertCore, hany]

/-- C10 witness: the theorem at the empty store — server.js rejects `""`
with 400, part_000 stores it with 201. -/
theorem empty_string_create_witness :
    (createServer (fun s => s) "t0" [] (some (JsonVal.jstr ""))).status = 400
    ∧ (createPart000 (fun s => s) "t0" [] (some (JsonVal.jstr ""))).status = 201 :=
  ⟨(empty_string_create (fun s => s) "t0" []).1.1,
   ((empty_string_create (fun s => s) "t0" []).2.2 (by decide)).1⟩

/-- C6 counterexample: a Create request with no `value` field is answered
with 404 — not 400 — by the part_000 variant (its own comment says
"instead of 400"), and a request whose `value` is the non-string `0` is
answered with the 400 falsy-check error — not 422 — by `src/server.js`. -/
theorem create_validation_counterexample :
    (createPart000 (fun s => s) "t0" [] none).status = 404
    ∧ (createPart000 (fun s => s) "t0" [] none).status ≠ 400
    ∧ (createServer (fun s => s) "t0" [] (some (JsonVal.jnum 0))).status = 400
    ∧ (createServer (fun s => s) "t0" [] (some (JsonVal.jnum 0))).status ≠ 422 := by
  decide

/-- C6 amended: in `src/server.js` an absent `value` — and more generally any
falsy `value` (null, false, 0, the empty string) — is rejected with 400 and a
truthy non-string with 422; in the part_000 variant an absent `value` is
rejected with 404 and any present non-string with 422; in every such case
the store is unchanged. -/
theorem create_validation_amended (hash : String → String) (now : String)
    (db : List StringRecord) :
    ((createServer hash now db none).status = 400
      ∧ (createServer hash now db none).db = db)
    ∧ (∀ v : JsonVal, jsTruthy (some v) = false →
        (createServer hash now db (some v)).status = 400
        ∧ (createServer hash now db (some v)).db = db)
    ∧ (∀ v : JsonVal, jsTruthy (some v) = true → isJstr v = false →
        (createServer hash now db (some v)).status = 422
        ∧ (createServer hash now db (some v)).db = db)
    ∧ ((createPart000 hash now db none).status = 404
      ∧ (createPart000 hash now db none).db = db)
    ∧ (∀ v : JsonVal, isJstr v = false →
        (createPart000 hash now db (some v)).status = 422
        ∧ (createPart000 hash now db (some v)).db = db) := by
  refine ⟨⟨rfl, rfl⟩, ?_, ?_, ⟨rfl, rfl⟩, ?_⟩
  · intro v hv
    constructor <;> simp [createServer, hv]
  · intro v hv hns
    cases v <;> simp_all [createServer, isJstr]
  · intro v hns
    cases v <;> simp_all [createPart000, isJstr]

/-- C6 witness: the amended theorem at concrete inputs — `value: 7` (truthy,
non-string) gets 422 from server.js, and a missing `value` gets 404 from
part_000, both on the empty store. -/
theorem create_validation_amended_witness :
    ((createServer (fun s => s) "t0" [] (some (JsonVal.jnum 7))).status = 422
      ∧ (createServer (fun s => s) "t0" [] (some (JsonVal.jnum 7))).db = [])
    ∧ (createPart000 (fun s => s) "t0" [] none).status = 404 :=
  ⟨(create_validation_amended (fun s => s) "t0" []).2.2.1 (JsonVal.jnum 7)
      (by decide) (by decide),
   (create_validation_amended (fun s => s) "t0" []).2.2.2.1.1⟩

/-- C2 counterexample: in `src/server.js`, the invalid token
`is_palindrome=banana` yields 200 — not 400 — and is treated as the implicit
boolean `false` (the stored non-palindrome "ab" is returned), and the
non-numeric `min_length=abc` is silently skipped rather than rejected. -/
theorem list_validation_counterexample :
    (listServer [mkRecord (fun s => s) "t0" "ab"]
        ⟨some "banana", none, none, none, none⟩).status = 200
    ∧ (listServer [mkRecord (fun s => s) "t0" "ab"]
        ⟨some "banana", none, none, none, none⟩).status ≠ 400
    ∧ (listServer [mkRecord (fun s => s) "t0" "ab"]
        ⟨some "banana", none, none, none, none⟩).data
      = [mkRecord (fun s => s) "t0" "ab"]
    ∧ (mkRecord (fun s => s) "t0" "ab").properties.is_palindrome = false
    ∧ (listServer [mkRecord (fun s => s) "t0" "ab"]
        ⟨none, some "abc", none, none, none⟩).status = 200
    ∧ (listServer [mkRecord (fun s => s) "t0" "ab"]
        ⟨none, some "abc", none, none, none⟩).data
      = [mkRecord (fun s => s) "t0" "ab"] := by
  decide

/-- C2 amended: the claimed behavior holds of the part_000 variant — any List
request with a populated (non-empty) invalid filter token fails with 400,
empty data and a field-specific message, and an `is_palindrome` token other
than the literals is rejected rather than coerced — while in `src/server.js`
an `is_palindrome` token other than 'true' is treated as the implicit
boolean false (status 200) and invalid numeric tokens are silently skipped;
in both variants a present-but-empty numeric or `contains_character`
parameter is falsy and is silently ignored. -/
theorem list_validation_amended (db : List StringRecord) (q : ListQuery)
    (h : hasInvalidParam q = true) :
    ((listPart000 db q).status = 400 ∧ (listPart000 db q).data = []
      ∧ (listPart000 db q).error ≠ none)
    ∧ (∀ t, t ≠ "true" → t ≠ "false" →
        (listPart000 db ⟨some t, none, none, none, none⟩).error
          = some "is_palindrome must be true or false")
    ∧ (∀ t, t ≠ "" → parseIntJS t = none →
        (listPart000 db ⟨none, some t, none, none, none⟩).error
          = some "min_length must be a number")
    ∧ (∀ t, t ≠ "" → parseIntJS t = none →
        (listPart000 db ⟨none, none, some t, none, none⟩).error
          = some "max_length must be a number")
    ∧ (∀ t, t ≠ "" → parseIntJS t = none →
        (listPart000 db ⟨none, none, none, some t, none⟩).error
          = some "word_count must be a number")
    ∧ (∀ t, t ≠ "" → (trimWS (lowerStr t).data).length ≠ 1 →
        (listPart000 db ⟨none, none, none, none, some t⟩).error
          = some "contains_character must be a single character")
    ∧ (∀ t, t ≠ "true" →
        (listServer db ⟨some t, none, none, none, none⟩).status = 200
        ∧ (listServer db ⟨some t, none, none, none, none⟩).data
          = db.filter (fun s => s.properties.is_palindrome == false)) := by
  refine ⟨listPart000_invalid db q h, ?_, ?_, ?_, ?_, ?_, ?_⟩
  · intro t ht1 ht2
    have hb : (t != "true" && t != "false") = true := by simp [ht1, ht2]
    simp [listPart000, hb]
  · intro t ht hp
    have ht' : (t == "") = false := by simp [ht]
    simp [listPart000, listPart000Min, ht', hp]
  · intro t ht hp
    have ht' : (t == "") = false := by simp [ht]
    simp [listPart000, listPart000Min, listPart000Max, ht', hp]
  · intro t ht hp
    have ht' : (t == "") = false := by simp [ht]
    simp [listPart000, listPart000Min, listPart000Max, listPart000Wc, ht', hp]
  · intro t ht hl
    have ht' : (t == "") = false := by simp [ht]
    simp only [listPart000, listPart000Min, listPart000Max, listPart000Wc,
      listPart000Char, ht', Bool.false_eq_true, if_false]
    cases hch : trimWS (lowerStr t).data with
    | nil => simp
    | cons c rest =>
      cases rest with
      | nil => rw [hch] at hl; simp at hl
      | cons d rest2 => simp
  · intro t ht
    have hb : (t == "true") = false := by simp [ht]
    constructor
    · rfl
    · simp [listServer, palStep, minStep, maxStep, wcStep, charStep, hb]

/-- C2 witness: the amended theorem at concrete invalid tokens — part_000
rejects `is_palindrome=banana` with 400 and `min_length=abc` with its
message, server.js answers the same `is_palindrome=banana` query with 200,
returning the non-palindrome record. -/
theorem list_validation_amended_witness :
    (listPart000 [mkRecord (fun s => s) "t0" "ab"]
        ⟨some "banana", none, none, none, none⟩).status = 400
    ∧ (listPart000 [mkRecord (fun s => s) "t0" "ab"]
        ⟨none, some "abc", none, none, none⟩).error
      = some "min_length must be a number"
    ∧ (listServer [mkRecord (fun s => s) "t0" "ab"]
        ⟨some "banana", none, none, none, none⟩).status = 200 := by
  have h := list_validation_amended [mkRecord (fun s => s) "t0" "ab"]
    ⟨some "banana", none, none, none, none⟩ (by decide)
  exact ⟨h.1.1, h.2.2.1 "abc" (by decide) (by decide),
    (h.2.2.2.2.2.2 "banana" (by decide)).1⟩

/-- C8: for every store and every valid filter specification (each populated
raw parameter related to its parsed value by the §4.4 validity relations),
the server.js List result is 200 and contains exactly the records satisfying
the conjunction of all populated filter fields, in store order (the result
is a sublist of the enumeration). -/
theorem list_filter_conjunction (db : List StringRecord) (q : ListQuery)
    (f : FilterSpec)
    (hpal : PalRel q.is_palindrome f.is_palindrome)
    (hmin : NumRel q.min_length f.min_length)
    (hmax : NumRel q.max_length f.max_length)
    (hwc : NumRel q.word_count f.word_count)
    (hchar : CharRel q.contains_character f.contains_character) :
    (listServer db q).status = 200
    ∧ (listServer db q).data = db.filter (matchesSpec f)
    ∧ List.Sublist (listServer db q).data db := by
  have hdata : (listServer db q).data = db.filter (matchesSpec f) := by
    show charStep q (wcStep q (maxStep q (minStep q (palStep q db)))) = _
    rw [palStep_eq q _ hpal, minStep_eq q _ hmin, maxStep_eq q _ hmax,
      wcStep_eq q _ hwc, charStep_eq q _ hchar]
    simp only [List.filter_filter]
    apply List.filter_congr
    intro s _
    unfold matchesSpec
    cases b1 : palPred f.is_palindrome s <;>
      cases b2 : minPred f.min_length s <;>
      cases b3 : maxPred f.max_length s <;>
      cases b4 : wcPred f.word_count s <;>
      cases b5 : charPred f.contains_character s <;> rfl
  refine ⟨rfl, hdata, ?_⟩
  rw [hdata]
  exact List.filter_sublist db

/-- C8 witness: the theorem at the spec's filter-conjunction example — the
store ["racecar", "hello"] filtered by `is_palindrome=true` and
`min_length=5` returns exactly the "racecar" record. -/
theorem list_filter_conjunction_witness :
    (listServer [mkRecord (fun s => s) "t0" "racecar",
                 mkRecord (fun s => s) "t1" "hello"]
        ⟨some "true", some "5", none, none, none⟩).data
      = [mkRecord (fun s => s) "t0" "racecar"] := by
  have h := list_filter_conjunction
    [mkRecord (fun s => s) "t0" "racecar", mkRecord (fun s => s) "t1" "hello"]
    ⟨some "true", some "5", none, none, none⟩
    { is_palindrome := some true, min_length := some 5 }
    (Or.inr (Or.inl ⟨rfl, rfl⟩))
    (Or.inr ⟨"5", 5, rfl, by decide, by decide, by decide, rfl⟩)
    (Or.inl ⟨rfl, rfl⟩) (Or.inl ⟨rfl, rfl⟩) (Or.inl ⟨rfl, rfl⟩)
  rw [h.2.1]
  decide

end StringAnalyzer
